import Mathlib

/-!
Shallow embedding of the LS-8 emulator in `cpu.py` (class `CPU`).

Register and memory cells hold Python numbers: ints (unbounded, so no
8-bit overflow unless the code truncates — it does not) or floats, which
only arise as true-division results and are modelled by their exact
rational value.  The flag register `fl` starts as Python `None`, hence
`Option PyNum`.  The source keeps the stack pointer in the separate
attribute `self.SP` (it is not register 7); the embedding mirrors that
with the field `sp`.  Fallible Python operations (list indexing, bit
operations on floats, division by zero, dispatch-table lookup) return
`Except`; an instruction-handler error carries the machine state at the
moment the exception is raised, so mutations made before the raise are
kept.
-/

set_option maxHeartbeats 4000000
set_option maxRecDepth 8000

namespace LS8

/-- Python runtime errors the emulator can raise: `keyError` from a failed
`in_table` lookup in `run`, `unsupportedALUOperation` from the explicit
`raise` in `alu`, `zeroDivisionError` from `/` with a zero divisor, and
`indexError` / `typeError` / `valueError` from list indexing out of range,
int operations on a float, and a negative shift count. -/
inductive PyErr where
  | indexError
  | typeError
  | keyError
  | valueError
  | zeroDivisionError
  | unsupportedALUOperation
  deriving DecidableEq, Repr

/-- A Python number: an int, or a float (modelled by its exact rational
value — the emulator's floats come only from `/` on small values, where
the IEEE result is exact in every scenario considered here). -/
inductive PyNum where
  | int : Int → PyNum
  | float : Rat → PyNum
  deriving DecidableEq, Repr

instance (n : Nat) : OfNat PyNum n := ⟨.int n⟩

/-- The exact numeric value, used for Python's cross-type `==`, `<`, `>`. -/
def PyNum.val : PyNum → Rat
  | .int z => (z : Rat)
  | .float q => q

/-- Python `+` on numbers: int + int is an int, anything involving a
float is a float. -/
def pyAdd : PyNum → PyNum → PyNum
  | .int a, .int b => .int (a + b)
  | a, b => .float (a.val + b.val)

/-- Python `-` on numbers. -/
def pySub : PyNum → PyNum → PyNum
  | .int a, .int b => .int (a - b)
  | a, b => .float (a.val - b.val)

/-- Python `*` on numbers. -/
def pyMul : PyNum → PyNum → PyNum
  | .int a, .int b => .int (a * b)
  | a, b => .float (a.val * b.val)

instance : Add PyNum := ⟨pyAdd⟩

instance : Sub PyNum := ⟨pySub⟩

instance : Mul PyNum := ⟨pyMul⟩

/-- Index resolution for a Python list of length `len`: a nonnegative index
must be `< len`; a negative index `n` silently addresses `len + n`
(Python wraparound); anything else is an IndexError (`none`). -/
def pyIdx (len : Nat) (n : Int) : Option Nat :=
  if 0 ≤ n ∧ n < len then some n.toNat
  else if -(len : Int) ≤ n ∧ n < 0 then some (n + len).toNat
  else none

instance {e a : Type} [DecidableEq e] [DecidableEq a] :
    DecidableEq (Except e a) := fun x y =>
  match x, y with
  | .ok u, .ok v =>
    if h : u = v then .isTrue (by rw [h]) else .isFalse (by simp [h])
  | .error u, .error v =>
    if h : u = v then .isTrue (by rw [h]) else .isFalse (by simp [h])
  | .ok _, .error _ => .isFalse (by simp)
  | .error _, .ok _ => .isFalse (by simp)

/-- Python `l[i]` for a list: a float index is a TypeError, an
out-of-range int index an IndexError. -/
def pyListGet (l : List PyNum) (i : PyNum) : Except PyErr PyNum :=
  match i with
  | .int n =>
    match pyIdx l.length n with
    | some k => .ok (l.getD k 0)
    | none => .error .indexError
  | .float _ => .error .typeError

/-- Python `l[i] = v` for a list, same index semantics as `pyListGet`. -/
def pyListSet (l : List PyNum) (i : PyNum) (v : PyNum) :
    Except PyErr (List PyNum) :=
  match i with
  | .int n =>
    match pyIdx l.length n with
    | some k => .ok (l.set k v)
    | none => .error .indexError
  | .float _ => .error .typeError

/-- The mutable state of `CPU`: `ram` (256 cells), `reg` (8 cells), the
program counter `pc`, the flag register `fl` (Python `None` before the
first CMP), and the attribute `self.SP`, kept separate from the register
file exactly as in the source. -/
structure CPUState where
  ram : List PyNum
  reg : List PyNum
  pc : PyNum
  fl : Option PyNum
  sp : PyNum
  deriving DecidableEq, Repr

/-- Embedding of `CPU.__init__`: `ram = [0]*256`, `reg = [0]*8`, `pc = 0`, `fl = None`,
`SP = 0xF4`, and then `self.reg[7] = self.ram[self.SP]` — register 7 gets
the contents of memory cell 244, which is 0, not the value 0xF4. -/
def initState : CPUState :=
  let ram := List.replicate 256 (0 : PyNum)
  let reg := (List.replicate 8 (0 : PyNum)).set 7 (ram.getD 244 0)
  { ram := ram, reg := reg, pc := 0, fl := none, sp := 244 }

/-- Embedding of `CPU.ram_read`: `return self.ram[MAR]`. -/
def ram_read (st : CPUState) (MAR : PyNum) : Except PyErr PyNum :=
  pyListGet st.ram MAR

/-- Embedding of `CPU.ram_write`: `self.ram[MAR] = MDR`. -/
def ram_write (st : CPUState) (MAR MDR : PyNum) : Except PyErr CPUState :=
  match pyListSet st.ram MAR MDR with
  | .error e => .error e
  | .ok m => .ok { st with ram := m }

/-- Result of an instruction handler: the new state, or the Python
exception raised together with the state at the raise point. -/
abbrev Res := Except (PyErr × CPUState) CPUState

/-- Embedding of `CPU.ldi`: `self.reg[operand_a] = operand_b; self.pc += 3`. -/
def ldi (st : CPUState) (operand_a operand_b : PyNum) : Res :=
  match pyListSet st.reg operand_a operand_b with
  | .error e => .error (e, st)
  | .ok r => .ok { st with reg := r, pc := st.pc + 3 }

/-- Embedding of `CPU.prn`: `print(self.reg[operand_a]); self.pc += 2`.  The printed
value is an external side effect (spec §6); the model reads the register
(so an invalid index still raises) and discards the value. -/
def prn (st : CPUState) (operand_a : PyNum) : Res :=
  match pyListGet st.reg operand_a with
  | .error e => .error (e, st)
  | .ok _ => .ok { st with pc := st.pc + 2 }

/-- Embedding of `CPU.push`: `self.SP -= 1; value = self.ram[operand_a];
self.ram[self.SP] = value; self.pc += 2`.  Note the source reads
`self.ram[operand_a]` — memory at the operand — although its own comment
says to copy the value in the given register. -/
def push (st : CPUState) (operand_a : PyNum) : Res :=
  let st1 := { st with sp := st.sp - 1 }
  match pyListGet st1.ram operand_a with
  | .error e => .error (e, st1)
  | .ok value =>
    match pyListSet st1.ram st1.sp value with
    | .error e => .error (e, st1)
    | .ok m => .ok { st1 with ram := m, pc := st1.pc + 2 }

/-- Embedding of `CPU.pop`: `value = self.ram[self.SP]; self.reg[operand_a] = value;
self.SP += 1; self.pc += 2`. -/
def pop (st : CPUState) (operand_a : PyNum) : Res :=
  match pyListGet st.ram st.sp with
  | .error e => .error (e, st)
  | .ok value =>
    match pyListSet st.reg operand_a value with
    | .error e => .error (e, st)
    | .ok r => .ok { st with reg := r, sp := st.sp + 1, pc := st.pc + 2 }

/-- Embedding of `CPU.call`: `self.SP -= 1; next_instruction_address = self.pc + 2;
self.ram[self.SP] = next_instruction_address;
address_to_jump_to = self.ram[operand_a]; self.SP = address_to_jump_to`.
The source assigns the jump target to `SP` (its comment says to set the
PC) and reads the target from `ram`, not `reg`; `pc` is never written. -/
def call (st : CPUState) (operand_a : PyNum) : Res :=
  let st1 := { st with sp := st.sp - 1 }
  let nia := st1.pc + 2
  match pyListSet st1.ram st1.sp nia with
  | .error e => .error (e, st1)
  | .ok m =>
    let st2 := { st1 with ram := m }
    match pyListGet st2.ram operand_a with
    | .error e => .error (e, st2)
    | .ok target => .ok { st2 with sp := target }

/-- Embedding of `CPU.ret`: `address = self.ram[self.SP]; self.pc = address;
self.SP += 1`. -/
def ret (st : CPUState) : Res :=
  match pyListGet st.ram st.sp with
  | .error e => .error (e, st)
  | .ok address => .ok { st with pc := address, sp := st.sp + 1 }

/-- Embedding of `CPU.jmp`: `self.pc = self.reg[operand_a]`. -/
def jmp (st : CPUState) (operand_a : PyNum) : Res :=
  match pyListGet st.reg operand_a with
  | .error e => .error (e, st)
  | .ok v => .ok { st with pc := v }

/-- Python `==` between the flag register (`None` or a number) and a
number: `None == n` is `False`, numbers compare by value. -/
def pyEqNum (fl : Option PyNum) (n : PyNum) : Bool :=
  match fl with
  | some x => decide (x.val = n.val)
  | none => false

/-- Embedding of `CPU.jeq`: `if self.fl == 0b10: self.pc = self.reg[operand_a]
else: self.pc += 2`. -/
def jeq (st : CPUState) (operand_a : PyNum) : Res :=
  if pyEqNum st.fl 2 then
    match pyListGet st.reg operand_a with
    | .error e => .error (e, st)
    | .ok v => .ok { st with pc := v }
  else .ok { st with pc := st.pc + 2 }

/-- Embedding of `CPU.jne`: `if self.fl != 0b10: self.pc = self.reg[operand_a]
else: self.pc += 2`. -/
def jne (st : CPUState) (operand_a : PyNum) : Res :=
  if pyEqNum st.fl 2 = false then
    match pyListGet st.reg operand_a with
    | .error e => .error (e, st)
    | .ok v => .ok { st with pc := v }
  else .ok { st with pc := st.pc + 2 }

/-- Shared shape of the arithmetic/logic branches of `CPU.alu`: read
`self.reg[reg_a]` then `self.reg[reg_b]` (Python evaluation order),
combine with `f`, store the result in `self.reg[reg_a]`, then
`self.pc += 3`.  No branch mutates state before its possible raise
point, so every error carries `st` unchanged. -/
def aluBin (st : CPUState) (reg_a reg_b : PyNum)
    (f : PyNum → PyNum → Except PyErr PyNum) : Res :=
  match pyListGet st.reg reg_a with
  | .error e => .error (e, st)
  | .ok ra =>
    match pyListGet st.reg reg_b with
    | .error e => .error (e, st)
    | .ok rb =>
      match f ra rb with
      | .error e => .error (e, st)
      | .ok v =>
        match pyListSet st.reg reg_a v with
        | .error e => .error (e, st)
        | .ok r => .ok { st with reg := r, pc := st.pc + 3 }

/-- Python `/` (true division): ZeroDivisionError when the divisor is
zero, otherwise a float holding the exact quotient. -/
def pyDiv (a b : PyNum) : Except PyErr PyNum :=
  match b with
  | .int z => if z = 0 then .error .zeroDivisionError else .ok (.float (a.val / b.val))
  | .float q => if q = 0 then .error .zeroDivisionError else .ok (.float (a.val / b.val))

/-- Python `a | b`: ints only (TypeError on a float); two's-complement
bitwise or. -/
def pyOr : PyNum → PyNum → Except PyErr PyNum
  | .int a, .int b => .ok (.int (Int.lor a b))
  | _, _ => .error .typeError

/-- Python `a ^ b`: ints only; two's-complement bitwise xor. -/
def pyXor : PyNum → PyNum → Except PyErr PyNum
  | .int a, .int b => .ok (.int (Int.xor a b))
  | _, _ => .error .typeError

/-- Python `a << b`: ints only, ValueError on a negative shift count,
and the exact product `a * 2 ^ b` (no 8-bit truncation). -/
def pyShl : PyNum → PyNum → Except PyErr PyNum
  | .int a, .int b =>
    if b < 0 then .error .valueError else .ok (.int (a * 2 ^ b.toNat))
  | _, _ => .error .typeError

/-- Python `a >> b`: ints only, ValueError on a negative shift count,
and the floor of `a / 2 ^ b` (arithmetic shift). -/
def pyShr : PyNum → PyNum → Except PyErr PyNum
  | .int a, .int b =>
    if b < 0 then .error .valueError else .ok (.int (Int.fdiv a (2 ^ b.toNat)))
  | _, _ => .error .typeError

/-- The CMP branch of `CPU.alu`: `if a == b: fl = 0b10, elif a < b:
fl = 0b100, elif a > b: fl = 0b1`.  There is no final `else` in the
source, so the fall-through keeps `fl`; on exact numbers the three guards
are exhaustive and that fall-through is dead. -/
def cmpFl (a b : PyNum) (fl : Option PyNum) : Option PyNum :=
  if a.val = b.val then some 2
  else if a.val < b.val then some 4
  else if b.val < a.val then some 1
  else fl

/-- Embedding of `CPU.alu`: dispatch on the source's opcode constants, in source order
(ADD `0b10100000` = 160, MUL 162, SUB 161, DIV 163, OR 170, XOR 171,
SHL 172, SHR 173, CMP 167); an unknown selector raises
`Exception("Unsupported ALU operation")`.  Every successful branch ends
with `self.pc += 3`; a raise skips that increment.  ADD/SUB/MUL are exact
(Python ints do not overflow), DIV is true division, and CMP writes only
`fl`. -/
def alu (op : Int) (st : CPUState) (reg_a reg_b : PyNum) : Res :=
  if op = 160 then aluBin st reg_a reg_b (fun ra rb => .ok (ra + rb))
  else if op = 162 then aluBin st reg_a reg_b (fun ra rb => .ok (ra * rb))
  else if op = 161 then aluBin st reg_a reg_b (fun ra rb => .ok (ra - rb))
  else if op = 163 then aluBin st reg_a reg_b pyDiv
  else if op = 170 then aluBin st reg_a reg_b pyOr
  else if op = 171 then aluBin st reg_a reg_b pyXor
  else if op = 172 then aluBin st reg_a reg_b pyShl
  else if op = 173 then aluBin st reg_a reg_b pyShr
  else if op = 167 then
    match pyListGet st.reg reg_a with
    | .error e => .error (e, st)
    | .ok a =>
      match pyListGet st.reg reg_b with
      | .error e => .error (e, st)
      | .ok b => .ok { st with fl := cmpFl a b st.fl, pc := st.pc + 3 }
  else .error (.unsupportedALUOperation, st)

/-- Outcome of one iteration of `CPU.run`: continue with a new state,
`sys.exit` (`hlt`, also reached by the final `else` of the operand-count
chain), or an uncaught Python exception, which aborts `run`. -/
inductive StepResult where
  | next (st : CPUState)
  | halted (st : CPUState)
  | error (e : PyErr) (st : CPUState)
  deriving DecidableEq, Repr

/-- Lift a handler result into a `StepResult`. -/
def toStep : Res → StepResult
  | .ok s => .next s
  | .error (e, s) => .error e s

/-- One iteration of the `while True` loop of `CPU.run`: fetch `IR` at
`pc` and the operand bytes at `pc + 1` and `pc + 2`; compute
`cpu_instruct = (IR & 0b11000000) >> 6` and
`alu_instruct = (IR & 0b00100000) >> 5` (the masks keep only the low
byte, so the model takes `IR mod 256` first, which agrees with Python's
`&` also on negative ints, and a float `IR` is a TypeError at this
point); intercept CALL (`0b01010000` = 80) and RET (`0b00010001` = 17);
then dispatch through `in_table` with the arity given by `cpu_instruct`.
A key missing from the table raises KeyError; a table entry called with
the wrong number of arguments would raise TypeError (unreachable, since
an opcode's arity bits are part of the key itself); and
`cpu_instruct = 3` falls into `else: self.hlt()`, silently halting. -/
def step (st : CPUState) : StepResult :=
  match pyListGet st.ram st.pc with
  | .error e => .error e st
  | .ok IR =>
  match pyListGet st.ram (st.pc + 1) with
  | .error e => .error e st
  | .ok operand_a =>
  match pyListGet st.ram (st.pc + 2) with
  | .error e => .error e st
  | .ok operand_b =>
  match IR with
  | .float _ => .error .typeError st
  | .int ir =>
    let low : Nat := (ir.emod 256).toNat
    let cpu_instruct : Nat := Nat.land low 192 >>> 6
    let alu_instruct : Nat := Nat.land low 32 >>> 5
    if ir = 80 then toStep (call st operand_a)
    else if ir = 17 then toStep (ret st)
    else if alu_instruct = 1 then toStep (alu ir st operand_a operand_b)
    else if cpu_instruct = 0 then
      if ir = 1 then .halted st
      else if ir = 17 then toStep (ret st)
      else if ir = 130 ∨ ir = 71 ∨ ir = 69 ∨ ir = 70 ∨ ir = 80 ∨ ir = 84 ∨
          ir = 85 ∨ ir = 86 then .error .typeError st
      else .error .keyError st
    else if cpu_instruct = 1 then
      if ir = 71 then toStep (prn st operand_a)
      else if ir = 69 then toStep (push st operand_a)
      else if ir = 70 then toStep (pop st operand_a)
      else if ir = 84 then toStep (jmp st operand_a)
      else if ir = 85 then toStep (jeq st operand_a)
      else if ir = 86 then toStep (jne st operand_a)
      else if ir = 1 ∨ ir = 17 ∨ ir = 130 then .error .typeError st
      else .error .keyError st
    else if cpu_instruct = 2 then
      if ir = 130 then toStep (ldi st operand_a operand_b)
      else if ir = 1 ∨ ir = 17 ∨ ir = 71 ∨ ir = 69 ∨ ir = 70 ∨ ir = 80 ∨
          ir = 84 ∨ ir = 85 ∨ ir = 86 then .error .typeError st
      else .error .keyError st
    else .halted st

/-- The opcodes the machine recognizes: the keys of `in_table` plus the
ALU selectors handled by `alu`. -/
def recognizedOpcode (b : Nat) : Bool :=
  [1, 17, 69, 70, 71, 80, 84, 85, 86, 130,
   160, 161, 162, 163, 167, 170, 171, 172, 173].contains b

/-- The machine state after `load` places the one-byte program `[b]` at
address 0 of the freshly initialized machine. -/
def prog1 (b : Nat) : CPUState :=
  { initState with ram := initState.ram.set 0 (.int b) }


/-- A machine whose register 0 holds 7 (register 1 holds 0, as at reset). -/
def divState : CPUState := { initState with reg := initState.reg.set 0 (.int 7) }

/-- Both outcomes of an instruction handler leave the flag register as it
was: the success state, and also the state carried by a raised exception. -/
def flPreserved (st : CPUState) (r : Res) : Prop :=
  (∀ st2, r = .ok st2 → st2.fl = st.fl) ∧
  (∀ e st2, r = .error (e, st2) → st2.fl = st.fl)

lemma flPreserved_ldi (st : CPUState) (a b : PyNum) :
    flPreserved st (ldi st a b) := by
  constructor
  · intro st2 h
    simp only [ldi] at h
    repeat' split at h
    any_goals (injection h ; done)
    all_goals injection h with h2
    all_goals subst h2
    all_goals rfl
  · intro e st2 h
    simp only [ldi] at h
    repeat' split at h
    any_goals (injection h ; done)
    all_goals injection h with h2
    all_goals injection h2 with h3 h4
    all_goals subst h4
    all_goals rfl

lemma flPreserved_prn (st : CPUState) (a : PyNum) :
    flPreserved st (prn st a) := by
  constructor
  · intro st2 h
    simp only [prn] at h
    repeat' split at h
    any_goals (injection h ; done)
    all_goals injection h with h2
    all_goals subst h2
    all_goals rfl
  · intro e st2 h
    simp only [prn] at h
    repeat' split at h
    any_goals (injection h ; done)
    all_goals injection h with h2
    all_goals injection h2 with h3 h4
    all_goals subst h4
    all_goals rfl

lemma flPreserved_push (st : CPUState) (a : PyNum) :
    flPreserved st (push st a) := by
  constructor
  · intro st2 h
    simp only [push] at h
    repeat' split at h
    any_goals (injection h ; done)
    all_goals injection h with h2
    all_goals subst h2
    all_goals rfl
  · intro e st2 h
    simp only [push] at h
    repeat' split at h
    any_goals (injection h ; done)
    all_goals injection h with h2
    all_goals injection h2 with h3 h4
    all_goals subst h4
    all_goals rfl

lemma flPreserved_pop (st : CPUState) (a : PyNum) :
    flPreserved st (pop st a) := by
  constructor
  · intro st2 h
    simp only [pop] at h
    repeat' split at h
    any_goals (injection h ; done)
    all_goals injection h with h2
    all_goals subst h2
    all_goals rfl
  · intro e st2 h
    simp only [pop] at h
    repeat' split at h
    any_goals (injection h ; done)
    all_goals injection h with h2
    all_goals injection h2 with h3 h4
    all_goals subst h4
    all_goals rfl

lemma flPreserved_call (st : CPUState) (a : PyNum) :
    flPreserved st (call st a) := by
  constructor
  · intro st2 h
    simp only [call] at h
    repeat' split at h
    any_goals (injection h ; done)
    all_goals injection h with h2
    all_goals subst h2
    all_goals rfl
  · intro e st2 h
    simp only [call] at h
    repeat' split at h
    any_goals (injection h ; done)
    all_goals injection h with h2
    all_goals injection h2 with h3 h4
    all_goals subst h4
    all_goals rfl

lemma flPreserved_ret (st : CPUState) :
    flPreserved st (ret st) := by
  constructor
  · intro st2 h
    simp only [ret] at h
    repeat' split at h
    any_goals (injection h ; done)
    all_goals injection h with h2
    all_goals subst h2
    all_goals rfl
  · intro e st2 h
    simp only [ret] at h
    repeat' split at h
    any_goals (injection h ; done)
    all_goals injection h with h2
    all_goals injection h2 with h3 h4
    all_goals subst h4
    all_goals rfl

lemma flPreserved_jmp (st : CPUState) (a : PyNum) :
    flPreserved st (jmp st a) := by
  constructor
  · intro st2 h
    simp only [jmp] at h
    repeat' split at h
    any_goals (injection h ; done)
    all_goals injection h with h2
    all_goals subst h2
    all_goals rfl
  · intro e st2 h
    simp only [jmp] at h
    repeat' split at h
    any_goals (injection h ; done)
    all_goals injection h with h2
    all_goals injection h2 with h3 h4
    all_goals subst h4
    all_goals rfl

lemma flPreserved_jeq (st : CPUState) (a : PyNum) :
    flPreserved st (jeq st a) := by
  constructor
  · intro st2 h
    simp only [jeq] at h
    repeat' split at h
    any_goals (injection h ; done)
    all_goals injection h with h2
    all_goals subst h2
    all_goals rfl
  · intro e st2 h
    simp only [jeq] at h
    repeat' split at h
    any_goals (injection h ; done)
    all_goals injection h with h2
    all_goals injection h2 with h3 h4
    all_goals subst h4
    all_goals rfl

lemma flPreserved_jne (st : CPUState) (a : PyNum) :
    flPreserved st (jne st a) := by
  constructor
  · intro st2 h
    simp only [jne] at h
    repeat' split at h
    any_goals (injection h ; done)
    all_goals injection h with h2
    all_goals subst h2
    all_goals rfl
  · intro e st2 h
    simp only [jne] at h
    repeat' split at h
    any_goals (injection h ; done)
    all_goals injection h with h2
    all_goals injection h2 with h3 h4
    all_goals subst h4
    all_goals rfl

lemma flPreserved_aluBin (st : CPUState) (a b : PyNum)
    (f : PyNum → PyNum → Except PyErr PyNum) :
    flPreserved st (aluBin st a b f) := by
  constructor
  · intro st2 h
    simp only [aluBin] at h
    repeat' split at h
    any_goals (injection h ; done)
    all_goals injection h with h2
    all_goals subst h2
    all_goals rfl
  · intro e st2 h
    simp only [aluBin] at h
    repeat' split at h
    any_goals (injection h ; done)
    all_goals injection h with h2
    all_goals injection h2 with h3 h4
    all_goals subst h4
    all_goals rfl

lemma flPreserved_alu_ne_cmp (op : Int) (st : CPUState) (a b : PyNum)
    (hop : op ≠ 167) : flPreserved st (alu op st a b) := by
  unfold alu
  split_ifs with h1 h2 h3 h4 h5 h6 h7 h8
  any_goals exact flPreserved_aluBin ..
  · constructor
    · intro st2 h
      injection h
    · intro e st2 h
      injection h with h2
      injection h2 with h3 h4
      subst h4
      rfl

lemma toStep_ne_halted (r : Res) (st2 : CPUState) : toStep r ≠ .halted st2 := by
  intro h
  cases r with
  | ok s => simp [toStep] at h
  | error p =>
    cases p
    simp [toStep] at h

lemma step_halted_fl (st st2 : CPUState) (h : step st = .halted st2) :
    st2.fl = st.fl := by
  simp only [step] at h
  repeat' split at h
  repeat' (rw [ite_eq_iff] at h; rcases h with ⟨hc, h⟩ | ⟨hc, h⟩)
  all_goals try (injection h ; done)
  all_goals try (injection h with h2; subst h2; rfl)
  all_goals exact absurd h (toStep_ne_halted _ _)

/-- C9: the flag register is written only by CMP (and machine reset):
`ldi`, `prn`, `push`, `pop`, `call`, `ret`, `jmp`, `jeq`, `jne`, and every
non-CMP ALU operation leave `fl` unchanged — both in the success state and
in the state carried by a raised exception; HLT (`sys.exit`, which `run`
also reaches through the `else` of its operand-count chain) halts with the
state, `fl` included, untouched. -/
theorem only_cmp_writes_fl (st : CPUState) (a b : PyNum) (op : Int) :
    flPreserved st (ldi st a b) ∧ flPreserved st (prn st a) ∧
    flPreserved st (push st a) ∧ flPreserved st (pop st a) ∧
    flPreserved st (call st a) ∧ flPreserved st (ret st) ∧
    flPreserved st (jmp st a) ∧ flPreserved st (jeq st a) ∧
    flPreserved st (jne st a) ∧
    (op ≠ 167 → flPreserved st (alu op st a b)) ∧
    (∀ st2, step st = .halted st2 → st2.fl = st.fl) :=
  ⟨flPreserved_ldi st a b, flPreserved_prn st a, flPreserved_push st a,
   flPreserved_pop st a, flPreserved_call st a, flPreserved_ret st,
   flPreserved_jmp st a, flPreserved_jeq st a, flPreserved_jne st a,
   fun hop => flPreserved_alu_ne_cmp op st a b hop,
   fun st2 h => step_halted_fl st st2 h⟩

/-- C9 witness: the non-CMP ALU hypothesis discharged at ADD on the
initial state. -/
theorem only_cmp_writes_fl_witness :
    (160 : Int) ≠ 167 ∧ flPreserved initState (alu 160 initState 0 1) :=
  ⟨by decide,
   (only_cmp_writes_fl initState 0 1 160).2.2.2.2.2.2.2.2.2.1 (by decide)⟩

/-- C10: at initialization the flag register holds Python `None`; while
`fl` is `None`, JEQ never jumps (its `fl == 0b10` test is false, so the PC
just advances by 2) and JNE always jumps (its `fl != 0b10` test is true,
so the PC is set to the given register's value). -/
theorem initial_fl_none_jump_behavior :
    initState.fl = none ∧
    (∀ st a, st.fl = none → jeq st a = .ok { st with pc := st.pc + 2 }) ∧
    (∀ st a v, st.fl = none → pyListGet st.reg a = .ok v →
      jne st a = .ok { st with pc := v }) := by
  refine ⟨rfl, ?_, ?_⟩
  · intro st a hfl
    unfold jeq
    rw [hfl]
    rfl
  · intro st a v hfl hget
    unfold jne
    rw [hfl]
    simp [pyEqNum, hget]

/-- C10 witness: the jump behavior at the freshly initialized machine. -/
theorem initial_fl_none_jump_behavior_witness :
    initState.fl = none ∧ pyListGet initState.reg 0 = .ok 0 ∧
    jeq initState 0 = .ok { initState with pc := initState.pc + 2 } ∧
    jne initState 0 = .ok { initState with pc := (0 : PyNum) } :=
  ⟨rfl, rfl,
   initial_fl_none_jump_behavior.2.1 initState 0 rfl,
   initial_fl_none_jump_behavior.2.2 initState 0 0 rfl rfl⟩

/-- C7: DIV with a divisor register holding 0 raises ZeroDivisionError —
Python's own division-by-zero error, not a float `inf` — before any
register is written, so the carried state is exactly the input state; the
uncaught exception aborts `run`, halting the machine. -/
theorem div_by_zero_error_no_mutation (st : CPUState) (ia ib ra : PyNum)
    (ha : pyListGet st.reg ia = .ok ra)
    (hb : pyListGet st.reg ib = .ok (.int 0)) :
    alu 163 st ia ib = .error (.zeroDivisionError, st) := by
  have h0 : alu 163 st ia ib = aluBin st ia ib pyDiv := rfl
  rw [h0]
  simp only [aluBin, ha, hb, pyDiv]
  simp

/-- C7 witness: dividing register 0 (holding 7) by register 1 (holding 0)
on the initialized machine. -/
theorem div_by_zero_error_no_mutation_witness :
    pyListGet divState.reg 0 = .ok (.int 7) ∧
    pyListGet divState.reg 1 = .ok (.int 0) ∧
    alu 163 divState 0 1 = .error (.zeroDivisionError, divState) :=
  ⟨rfl, rfl,
   div_by_zero_error_no_mutation divState 0 1 (.int 7) rfl rfl⟩

/-- A machine with register 0 holding 5 and memory cell 0 holding 99. -/
def pushPopState : CPUState :=
  { initState with
    reg := initState.reg.set 0 (.int 5),
    ram := initState.ram.set 0 (.int 99) }

/-- C1: failing-input evaluation. With register 0 holding 5 and memory
cell 0 holding 99, PUSH 0 followed immediately by POP 1 leaves register 1
holding 99 — the value of memory cell 0, not the value 5 that register 0
held — because `push` reads `self.ram[operand_a]` although its own
comment says to copy the value in the given register; the stack pointer
is restored to its pre-PUSH value (244). -/
theorem push_pop_stores_memory_not_register :
    (push pushPopState 0).bind (fun s => pop s 1) =
      .ok { pushPopState with
        ram := pushPopState.ram.set 243 (.int 99),
        reg := pushPopState.reg.set 1 (.int 99), pc := .int 4,
        sp := .int 244 } ∧
    pushPopState.reg.getD 0 0 = .int 5 ∧ PyNum.int 99 ≠ .int 5 :=
  ⟨by decide, by decide, by decide⟩

/-- A machine with `CALL 1` loaded at address 0 (opcode 0x50 = 80,
operand byte 1) and register 1 holding the subroutine address 20. -/
def callState : CPUState :=
  { initState with
    ram := (initState.ram.set 0 (.int 80)).set 1 (.int 1),
    reg := initState.reg.set 1 (.int 20) }

/-- C2: failing-input evaluation. Executing the CALL at address 0 pushes
the return address 2 at memory cell 243, but then assigns the jump target
to `SP` (which becomes `ram[1] = 1` — read from memory at the operand,
not from register 1, which holds 20) and never writes the PC: the
resulting state still has PC = 0, so execution never enters the
subroutine and a RET can never resume at the instruction after the CALL. -/
theorem call_assigns_target_to_sp_not_pc :
    step callState = .next { callState with
      ram := callState.ram.set 243 (.int 2), sp := .int 1 } ∧
    callState.reg.getD 1 0 = .int 20 ∧
    ({ callState with
       ram := callState.ram.set 243 (.int 2), sp := .int 1 } :
      CPUState).pc = .int 0 :=
  ⟨by decide, by decide, by decide⟩

/-- C3 counterexample: at initialization register 7 holds 0 (the contents
of memory cell 0xF4), not the stack-pointer value 0xF4 = 244. -/
theorem reg7_not_initialized_to_sp :
    initState.reg.getD 7 0 = .int 0 ∧ PyNum.int 0 ≠ .int 244 := by decide

/-- C3 amended: the stack pointer of this implementation is the separate
attribute `SP`, not register R7: at initialization `SP` holds 0xF4 = 244
while R7 holds memory[0xF4] = 0; PUSH decrements `SP` by 1 and then
writes the pushed value through it, leaving every register unchanged, and
POP reads memory through `SP` and then increments it, leaving memory
unchanged — so `SP`, not R7, always holds the top-of-stack address. -/
theorem sp_attribute_is_stack_pointer :
    initState.sp = .int 244 ∧ initState.reg.getD 7 0 = .int 0 ∧
    (∀ st a st2, push st a = .ok st2 →
      st2.sp = st.sp - 1 ∧ st2.reg = st.reg ∧
      ∃ v, pyListGet st.ram a = .ok v ∧
        pyListSet st.ram (st.sp - 1) v = .ok st2.ram) ∧
    (∀ st a st2, pop st a = .ok st2 →
      st2.sp = st.sp + 1 ∧ st2.ram = st.ram ∧
      ∃ v, pyListGet st.ram st.sp = .ok v ∧
        pyListSet st.reg a v = .ok st2.reg) := by
  refine ⟨rfl, rfl, ?_, ?_⟩
  · intro st a st2 h
    simp only [push] at h
    cases hg : pyListGet st.ram a with
    | error e => simp [hg] at h
    | ok v =>
      cases hs : pyListSet st.ram (st.sp - 1) v with
      | error e => simp [hg, hs] at h
      | ok m =>
        simp only [hg, hs, Except.ok.injEq] at h
        subst h
        exact ⟨rfl, rfl, v, rfl, hs⟩
  · intro st a st2 h
    simp only [pop] at h
    cases hg : pyListGet st.ram st.sp with
    | error e => simp [hg] at h
    | ok v =>
      cases hs : pyListSet st.reg a v with
      | error e => simp [hg, hs] at h
      | ok r =>
        simp only [hg, hs, Except.ok.injEq] at h
        subst h
        exact ⟨rfl, rfl, v, rfl, hs⟩

/-- The state produced by PUSH 0 on the freshly initialized machine. -/
def pushedState : CPUState :=
  { initState with
    sp := .int 243, ram := initState.ram.set 243 (.int 0), pc := .int 2 }

/-- C3 witness: the PUSH clause discharged on the initialized machine. -/
theorem sp_attribute_is_stack_pointer_witness :
    push initState 0 = .ok pushedState ∧
    (pushedState.sp = initState.sp - 1 ∧ pushedState.reg = initState.reg ∧
     ∃ v, pyListGet initState.ram 0 = .ok v ∧
       pyListSet initState.ram (initState.sp - 1) v = .ok pushedState.ram) :=
  ⟨by decide,
   sp_attribute_is_stack_pointer.2.2.1 initState 0 pushedState (by decide)⟩

/-- C4 counterexample: opcode 0xC0 = 192 is not recognized, yet the
machine halts silently exactly as on HLT — the `else` of the
operand-count chain calls `self.hlt()` — with no error raised and with
the loaded state unchanged. -/
theorem unrecognized_opcode_silently_halts :
    recognizedOpcode 192 = false ∧ step (prog1 192) = .halted (prog1 192) :=
  ⟨by decide, by decide⟩

/-- C4 amended: a program consisting of a single unrecognized opcode byte
halts the machine with no register or memory mutation (the resulting
state is the loaded state itself), but the outcome depends on the bits of
the byte: with bit 5 set the unsupported-ALU-operation exception is
raised; with bit 5 clear and the two high bits not both set, the dispatch
table raises KeyError — neither is a named UnsupportedInstruction error —
and with bit 5 clear but both high bits set there is no error at all: the
machine silently halts as if the byte were HLT. -/
theorem unrecognized_opcode_dispatch : ∀ b : Nat, b < 256 →
    recognizedOpcode b = false →
    (Nat.land b 32 = 32 →
      step (prog1 b) = .error .unsupportedALUOperation (prog1 b)) ∧
    (Nat.land b 32 = 0 → Nat.land b 192 = 192 →
      step (prog1 b) = .halted (prog1 b)) ∧
    (Nat.land b 32 = 0 → Nat.land b 192 ≠ 192 →
      step (prog1 b) = .error .keyError (prog1 b)) := by
  decide

/-- C4 witness: the KeyError clause discharged at the byte 0. -/
theorem unrecognized_opcode_dispatch_witness :
    (0:Nat) < 256 ∧ recognizedOpcode 0 = false ∧ Nat.land 0 32 = 0 ∧
    Nat.land 0 192 ≠ 192 ∧ step (prog1 0) = .error .keyError (prog1 0) :=
  ⟨by decide, by decide, by decide, by decide,
   (unrecognized_opcode_dispatch 0 (by decide) (by decide)).2.2 (by decide)
     (by decide)⟩

/-- A machine with register 0 holding 1 and register 1 holding 2. -/
def cmpState : CPUState :=
  { initState with
    reg := (initState.reg.set 0 (.int 1)).set 1 (.int 2) }

/-- C5: CMP sets the flag register to exactly one of equal (`0b10`),
less-than (`0b100`), greater-than (`0b1`) — the three outcomes are
characterized by mutually exclusive, exhaustive guards on the exact
values — mutates neither compared register (the success state changes
only `fl` and `pc`, which advances by 3); and in any state whose flag is
less-than, an executed JEQ is not taken (PC advances by 2) while an
executed JNE is taken (PC is set to the given register's value). -/
theorem cmp_trichotomy_and_conditional_jumps (st : CPUState)
    (ia ib ra rb : PyNum)
    (ha : pyListGet st.reg ia = .ok ra) (hb : pyListGet st.reg ib = .ok rb) :
    alu 167 st ia ib =
      .ok { st with fl := cmpFl ra rb st.fl, pc := st.pc + 3 } ∧
    ({ st with fl := cmpFl ra rb st.fl, pc := st.pc + 3 } :
      CPUState).reg = st.reg ∧
    (cmpFl ra rb st.fl = some 2 ∨ cmpFl ra rb st.fl = some 4 ∨
      cmpFl ra rb st.fl = some 1) ∧
    (cmpFl ra rb st.fl = some 2 ↔ ra.val = rb.val) ∧
    (cmpFl ra rb st.fl = some 4 ↔ ra.val < rb.val) ∧
    (cmpFl ra rb st.fl = some 1 ↔ rb.val < ra.val) ∧
    (∀ st2 j v, st2.fl = some 4 →
      (jeq st2 j = .ok { st2 with pc := st2.pc + 2 }) ∧
      (pyListGet st2.reg j = .ok v → jne st2 j = .ok { st2 with pc := v })) := by
  have key : (cmpFl ra rb st.fl = some 2 ∨ cmpFl ra rb st.fl = some 4 ∨
      cmpFl ra rb st.fl = some 1) ∧
      (cmpFl ra rb st.fl = some 2 ↔ ra.val = rb.val) ∧
      (cmpFl ra rb st.fl = some 4 ↔ ra.val < rb.val) ∧
      (cmpFl ra rb st.fl = some 1 ↔ rb.val < ra.val) := by
    unfold cmpFl
    rcases lt_trichotomy ra.val rb.val with hlt | heq | hgt
    · have hne : ra.val ≠ rb.val := ne_of_lt hlt
      rw [if_neg hne, if_pos hlt]
      exact ⟨Or.inr (Or.inl rfl), iff_of_false (by decide) hne,
        iff_of_true rfl hlt, iff_of_false (by decide) (lt_asymm hlt)⟩
    · rw [if_pos heq]
      exact ⟨Or.inl rfl, iff_of_true rfl heq,
        iff_of_false (by decide) (by rw [heq]; exact lt_irrefl _),
        iff_of_false (by decide) (by rw [heq]; exact lt_irrefl _)⟩
    · have hne : ra.val ≠ rb.val := ne_of_gt hgt
      have hnlt : ¬ ra.val < rb.val := lt_asymm hgt
      rw [if_neg hne, if_neg hnlt, if_pos hgt]
      exact ⟨Or.inr (Or.inr rfl), iff_of_false (by decide) hne,
        iff_of_false (by decide) hnlt, iff_of_true rfl hgt⟩
  refine ⟨?_, rfl, key.1, key.2.1, key.2.2.1, key.2.2.2, ?_⟩
  · simp only [alu, ha, hb]
    norm_num
  · intro st2 j v hfl
    constructor
    · unfold jeq
      rw [hfl]
      rfl
    · intro hget
      unfold jne
      rw [hfl]
      simp [pyEqNum, PyNum.val, hget]

/-- C5 witness: CMP on registers holding 1 and 2 on the initialized
machine, hypotheses discharged concretely. -/
theorem cmp_trichotomy_and_conditional_jumps_witness :
    pyListGet cmpState.reg 0 = .ok (.int 1) ∧
    pyListGet cmpState.reg 1 = .ok (.int 2) ∧
    alu 167 cmpState 0 1 =
      .ok { cmpState with
        fl := cmpFl (.int 1) (.int 2) cmpState.fl, pc := cmpState.pc + 3 } :=
  ⟨by decide, by decide,
   (cmp_trichotomy_and_conditional_jumps cmpState 0 1 (.int 1) (.int 2)
     (by decide) (by decide)).1⟩

/-- A machine with registers 0 and 1 both holding 200. -/
def addState : CPUState :=
  { initState with
    reg := (initState.reg.set 0 (.int 200)).set 1 (.int 200) }

/-- C6 counterexample: ADD on two registers holding 200 stores the exact
sum 400 — the result is not truncated to 8 bits (truncation would store
400 mod 256 = 144). -/
theorem add_result_not_truncated :
    alu 160 addState 0 1 =
      .ok { addState with
        reg := addState.reg.set 0 (.int 400), pc := .int 3 } ∧
    PyNum.int 400 ≠ .int 144 :=
  ⟨by decide, by decide⟩

/-- C6 amended: the ALU keeps no 8-bit bound on its results: ADD stores
the exact untruncated sum and MUL the exact untruncated product, and
SHL/SHR shift by the full value of b rather than b mod 8 — SHL stores
`a * 2 ^ b` and SHR stores the floor of `a / 2 ^ b` — each advancing the
PC by 3. -/
theorem alu_exact_untruncated (st : CPUState) (ia ib ra rb : PyNum)
    (reg2 : List PyNum)
    (ha : pyListGet st.reg ia = .ok ra) (hb : pyListGet st.reg ib = .ok rb) :
    (pyListSet st.reg ia (ra + rb) = .ok reg2 →
      alu 160 st ia ib = .ok { st with reg := reg2, pc := st.pc + 3 }) ∧
    (pyListSet st.reg ia (ra * rb) = .ok reg2 →
      alu 162 st ia ib = .ok { st with reg := reg2, pc := st.pc + 3 }) ∧
    (∀ x y : Int, ra = .int x → rb = .int y → 0 ≤ y →
      (pyListSet st.reg ia (.int (x * 2 ^ y.toNat)) = .ok reg2 →
        alu 172 st ia ib = .ok { st with reg := reg2, pc := st.pc + 3 }) ∧
      (pyListSet st.reg ia (.int (Int.fdiv x (2 ^ y.toNat))) = .ok reg2 →
        alu 173 st ia ib = .ok { st with reg := reg2, pc := st.pc + 3 })) := by
  refine ⟨?_, ?_, ?_⟩
  · intro hset
    have h0 : alu 160 st ia ib =
        aluBin st ia ib (fun u v => .ok (u + v)) := rfl
    rw [h0]
    simp only [aluBin, ha, hb, hset]
  · intro hset
    have h0 : alu 162 st ia ib =
        aluBin st ia ib (fun u v => .ok (u * v)) := rfl
    rw [h0]
    simp only [aluBin, ha, hb, hset]
  · intro x y hx hy hy0
    subst hx
    subst hy
    constructor
    · intro hset
      have h0 : alu 172 st ia ib = aluBin st ia ib pyShl := rfl
      rw [h0]
      simp only [aluBin, ha, hb, pyShl, if_neg (not_lt.mpr hy0), hset]
    · intro hset
      have h0 : alu 173 st ia ib = aluBin st ia ib pyShr := rfl
      rw [h0]
      simp only [aluBin, ha, hb, pyShr, if_neg (not_lt.mpr hy0), hset]

/-- C6 witness: the ADD clause discharged on two registers holding 200. -/
theorem alu_exact_untruncated_witness :
    pyListGet addState.reg 0 = .ok (.int 200) ∧
    pyListGet addState.reg 1 = .ok (.int 200) ∧
    pyListSet addState.reg 0 (.int 200 + .int 200) =
      .ok (addState.reg.set 0 (.int 400)) ∧
    alu 160 addState 0 1 =
      .ok { addState with
        reg := addState.reg.set 0 (.int 400), pc := addState.pc + 3 } :=
  ⟨by decide, by decide, by decide,
   (alu_exact_untruncated addState 0 1 (.int 200) (.int 200)
     (addState.reg.set 0 (.int 400)) (by decide) (by decide)).1 (by decide)⟩

/-- C8 counterexample: reading memory at address −1 does not fail: Python
list indexing silently wraps negative indices, so `ram_read` returns the
contents of cell 255 (0 at reset) instead of raising an out-of-bounds
error, although −1 lies outside [0, 255]. -/
theorem ram_read_negative_index_no_error :
    ram_read initState (.int (-1)) = .ok (.int 0) := by decide

lemma pyIdx_out (len : Nat) (n : Int) (h : n < -(len : Int) ∨ (len : Int) ≤ n) :
    pyIdx len n = none := by
  unfold pyIdx
  rw [if_neg (by omega), if_neg (by omega)]

lemma pyIdx_wrap (len : Nat) (n : Int) (h1 : -(len : Int) ≤ n) (h2 : n < 0) :
    pyIdx len n = some (n + len).toNat := by
  unfold pyIdx
  rw [if_neg (by omega), if_pos ⟨h1, h2⟩]

lemma pyIdx_in (len : Nat) (n : Int) (h1 : 0 ≤ n) (h2 : n < (len : Int)) :
    pyIdx len n = some n.toNat := by
  unfold pyIdx
  rw [if_pos ⟨h1, h2⟩]

/-- C8 amended: for a machine with the standard shapes (256 memory cells,
8 registers), memory access fails — with Python's IndexError, not a named
OutOfBounds error — exactly when the integer address lies outside
[−256, 255]: addresses in [−256, −1] silently wrap around to address+256
instead of failing, in-range addresses succeed, and a float address
raises TypeError. Register access likewise raises IndexError — not a
named InvalidRegister error — exactly when the index lies outside
[−8, 7], with indices in [−8, −1] silently wrapping to index+8. -/
theorem index_error_and_wraparound (st : CPUState)
    (hram : st.ram.length = 256) (hreg : st.reg.length = 8)
    (n : Int) (v : PyNum) :
    (256 ≤ n ∨ n < -256 →
      ram_read st (.int n) = .error .indexError ∧
      ram_write st (.int n) v = .error .indexError) ∧
    (-256 ≤ n → n < 0 →
      ram_read st (.int n) = ram_read st (.int (n + 256))) ∧
    (0 ≤ n → n < 256 → ram_read st (.int n) = .ok (st.ram.getD n.toNat 0)) ∧
    (8 ≤ n ∨ n < -8 → pyListGet st.reg (.int n) = .error .indexError) ∧
    (-8 ≤ n → n < 0 →
      pyListGet st.reg (.int n) = pyListGet st.reg (.int (n + 8))) ∧
    (∀ q : Rat, ram_read st (.float q) = .error .typeError) := by
  refine ⟨?_, ?_, ?_, ?_, ?_, ?_⟩
  · intro hc
    constructor
    · simp only [ram_read, pyListGet]
      rw [hram, pyIdx_out 256 n (by omega)]
    · simp only [ram_write, pyListSet]
      rw [hram, pyIdx_out 256 n (by omega)]
  · intro h1 h2
    simp only [ram_read, pyListGet]
    rw [hram, pyIdx_wrap 256 n (by omega) h2,
      pyIdx_in 256 (n + 256) (by omega) (by omega)]
    norm_cast
  · intro h1 h2
    simp only [ram_read, pyListGet]
    rw [hram, pyIdx_in 256 n h1 (by omega)]
  · intro hc
    simp only [pyListGet]
    rw [hreg, pyIdx_out 8 n (by omega)]
  · intro h1 h2
    simp only [pyListGet]
    rw [hreg, pyIdx_wrap 8 n (by omega) h2,
      pyIdx_in 8 (n + 8) (by omega) (by omega)]
    norm_cast
  · intro q
    rfl

/-- C8 witness: the out-of-range clause discharged at address 300 on the
initialized machine. -/
theorem index_error_and_wraparound_witness :
    initState.ram.length = 256 ∧ initState.reg.length = 8 ∧
    (256 ≤ (300 : Int) ∨ (300 : Int) < -256) ∧
    ram_read initState (.int 300) = .error .indexError ∧
    ram_write initState (.int 300) 0 = .error .indexError :=
  ⟨by decide, by decide, by decide,
   ((index_error_and_wraparound initState (by decide) (by decide) 300 0).1
     (by decide)).1,
   ((index_error_and_wraparound initState (by decide) (by decide) 300 0).1
     (by decide)).2⟩

end LS8
